import Mathlib

/-! # Axeamigo: the scan scheduler, the driving loop and the artifact names

A shallow embedding of `src/plugins/plugins.go`, `src/plugins/simple.go` and
`src/main.go`.

* Go `int64` values are `Int`s; an `int64` addition is followed by `wrapInt64`.
* Go `uint` and `int` are taken to be 64 bits wide; `uint` values are `Nat`s.
* A nil pointer dereference is the error `Panic.nilDereference`.
* The file system, the YAML and JSON decoders, the log client and the scanner
  of `certificate-transparency-go` are outside the repository: they are
  fields of `StartEnv` and `ScanEnv`.
-/

namespace Axeamigo

/-! ## Machine integers -/

/-- Two's-complement wrap of an integer into the `int64` range. -/
def wrapInt64 (x : Int) : Int :=
  (x + 2 ^ 63) % 2 ^ 64 - 2 ^ 63

/-- The largest `int64`. -/
def maxInt64 : Int := 2 ^ 63 - 1

/-! ## Data model (`plugins.go`) -/

/-- Go `error` values: the "file does not exist" error of the file system, or
any other error, carried as its message. -/
inductive Error where
  | notExist
  | other (msg : String)
deriving DecidableEq, Repr

/-- File contents. -/
abbrev Bytes := List Nat

/-- `type Result struct { Success bool; Err error }`. -/
structure Result where
  Success : Bool
  Err : Option Error
deriving DecidableEq, Repr

/-- `type Task struct`, field for field. `Res` is a pointer, `none` is nil. -/
structure Task where
  LogURI : String
  PrecertsOnly : Bool
  BatchSize : Int
  Concurrency : Int
  StartIndex : Int
  EndIndex : Int
  Res : Option Result
deriving DecidableEq, Repr

/-- `type SimpleScheduler struct` (`simple.go`), field for field. -/
structure SimpleScheduler where
  LogURI : String
  CurrentBatch : Nat
  BatchSize : Nat
  SaveData : String
  Start : Nat
  End : Nat
deriving DecidableEq, Repr

/-- `type SimpleConfig struct` (`simple.go`), field for field. -/
structure SimpleConfig where
  LogURI : String
  SaveData : String
  BatchSize : Nat
  Concurrency : String
  Start : Nat
  End : Nat
deriving DecidableEq, Repr

/-- Run-time panics of the Go program. -/
inductive Panic where
  | nilDereference
  | startFailed (err : Error)
deriving DecidableEq, Repr

/-! ## The scheduler (`simple.go`, `SimpleScheduler.Next`) -/

/-- `func (s *SimpleScheduler) Next(task *Task) *Task`.

The receiver is threaded through as state; the body only builds the returned
task, reading every field through the `task` pointer, so a nil `task` panics
and the receiver is returned as it was. -/
def SimpleScheduler.Next (s : SimpleScheduler) (task : Option Task) :
    Except Panic (SimpleScheduler × Task) :=
  match task with
  | none => .error Panic.nilDereference
  | some task =>
    .ok (s,
      { LogURI := task.LogURI
        PrecertsOnly := task.PrecertsOnly
        BatchSize := task.BatchSize
        Concurrency := task.Concurrency
        StartIndex := wrapInt64 (task.StartIndex + task.BatchSize)
        EndIndex := task.EndIndex
        Res := none })

/-! ## The fetch pipeline (`simple.go`, `Gao`) -/

/-- `scanner.FetcherOptions` of certificate-transparency-go: the library's
struct, a field the composite literal in `Gao` leaves out has Go's zero
value. -/
structure FetcherOptions where
  BatchSize : Int
  ParallelFetch : Int
  StartIndex : Int
  EndIndex : Int
  Continuous : Bool
deriving DecidableEq, Repr

/-- `scanner.ScannerOptions` of certificate-transparency-go: the embedded
`FetcherOptions`, then `PrecertOnly`, `NumWorkers`, `BufferSize` (the `Matcher`
interface value, nil in `Gao`, is left out). -/
structure ScannerOptions where
  Fetcher : FetcherOptions
  PrecertOnly : Bool
  NumWorkers : Int
  BufferSize : Int
deriving DecidableEq, Repr

/-- What the program does to the outside world, in program order. -/
inductive Event where
  | println (err : Error)
  | scan (client : Option String) (opts : ScannerOptions)
deriving DecidableEq, Repr

/-- How a call of `Scanner.Scan` ends: it returns its error (`none` is nil), or
it does not return to `Gao` at all (it blocks or retries for ever, or the
process dies inside it). -/
inductive ScanOutcome where
  | returned (err : Option Error)
  | notReturned
deriving DecidableEq, Repr

/-- The log server as seen from `Gao`: `clientNew uri` is the error of
`client.New` (`none` when the client is built), `scan client opts` is how
`Scanner.Scan` ends for a scanner over `client` (`none` is the nil client) with
options `opts`. -/
structure ScanEnv where
  clientNew : String → Option Error
  scan : Option String → ScannerOptions → ScanOutcome

/-- `func (sl *SimpleLogger) Fatal(err error)`: prints the error and returns. -/
def SimpleLogger.Fatal (err : Error) : List Event :=
  [Event.println err]

/-- The `opts := scanner.ScannerOptions{...}` literal of `Gao`. -/
def Gao.opts (task : Task) : ScannerOptions :=
  { Fetcher :=
      { BatchSize := task.BatchSize
        ParallelFetch := task.Concurrency
        StartIndex := task.StartIndex
        EndIndex := task.EndIndex
        Continuous := false }
    PrecertOnly := false
    NumWorkers := 0
    BufferSize := 0 }

/-- `func Gao(task *Task, director Director) *Result` with the director of
`HireMillionSalaryDirector` (its logger is `SimpleLogger`): the events it
causes and the result it returns, `none` when `Scan` does not return and so
`Gao` does not either. -/
def Gao (env : ScanEnv) (task : Task) : List Event × Option Result :=
  let (logClient, ev1) :=
    match env.clientNew task.LogURI with
    | some err => ((none : Option String), SimpleLogger.Fatal err)
    | none => (some task.LogURI, [])
  let opts := Gao.opts task
  match env.scan logClient opts with
  | ScanOutcome.notReturned =>
    (ev1 ++ [Event.scan logClient opts], none)
  | ScanOutcome.returned (some err) =>
    (ev1 ++ [Event.scan logClient opts] ++ SimpleLogger.Fatal err,
      some { Success := false, Err := some err })
  | ScanOutcome.returned none =>
    (ev1 ++ [Event.scan logClient opts], some { Success := true, Err := none })

/-! ## Start-up (`simple.go`, `SimpleStarter.Start`) -/

/-- The file system and the two decoders `Start` calls. -/
structure StartEnv where
  readFile : String → Except Error Bytes
  yamlUnmarshal : Bytes → Except Error SimpleConfig
  jsonUnmarshal : Bytes → Except Error SimpleScheduler

/-- `func (ss *SimpleStarter) Start() (Scheduler, error)`. -/
def SimpleStarter.Start (env : StartEnv) : Except Error SimpleScheduler :=
  match env.readFile "simple.yaml" with
  | .error err => .error err
  | .ok content =>
    match env.yamlUnmarshal content with
    | .error err => .error err
    | .ok conf =>
      match env.readFile conf.SaveData with
      | .ok saved =>
        match env.jsonUnmarshal saved with
        | .error err => .error err
        | .ok data => .ok data
      | .error _ =>
        .ok
          { LogURI := conf.LogURI
            CurrentBatch := 0
            SaveData := conf.SaveData
            BatchSize := conf.BatchSize
            Start := conf.Start
            End := conf.End }

/-! ## The driving loop (`main.go`) -/

/-- Where a run of `main` stands: between two passes of the loop, with the
scheduler, the `task` variable and the events so far; stopped by a panic; or
inside the `Gao` call on `task`, whose scan does not return. -/
inductive Run where
  | running (scheduler : SimpleScheduler) (task : Option Task) (trace : List Event)
  | panicked (p : Panic) (trace : List Event)
  | blocked (scheduler : SimpleScheduler) (task : Task) (trace : List Event)
deriving DecidableEq, Repr

/-- The events of a run so far. -/
def Run.trace : Run → List Event
  | Run.running _ _ trace => trace
  | Run.panicked _ trace => trace
  | Run.blocked _ _ trace => trace

/-- One pass through the body of the `for` loop of `main`:
`task = scheduler.Next(task); plugins.Gao(task, director)`: the scheduler, the
new `task`, the events of `Gao`, and whether `Gao` returned. The result `Gao`
returns is dropped, as in the source. -/
def loopBody (env : ScanEnv) (scheduler : SimpleScheduler) (task : Option Task) :
    Except Panic (SimpleScheduler × Task × List Event × Bool) :=
  match scheduler.Next task with
  | .error p => .error p
  | .ok (scheduler', task') =>
    .ok (scheduler', task', (Gao env task').1, (Gao env task').2.isSome)

/-- The `for` loop of `main`, run for at most `n` passes. The loop has no
exit: it only stops by a panic, or inside a `Gao` that does not return. -/
def mainLoop (env : ScanEnv) : Nat → SimpleScheduler → Option Task → List Event → Run
  | 0, scheduler, task, trace => Run.running scheduler task trace
  | n + 1, scheduler, task, trace =>
    match loopBody env scheduler task with
    | .error p => Run.panicked p trace
    | .ok (scheduler', task', events, false) =>
      Run.blocked scheduler' task' (trace ++ events)
    | .ok (scheduler', task', events, true) =>
      mainLoop env n scheduler' (some task') (trace ++ events)

/-- `func main()`, its loop run for at most `n` passes. -/
def main (senv : StartEnv) (env : ScanEnv) (n : Nat) : Run :=
  match SimpleStarter.Start senv with
  | .error err => Run.panicked (Panic.startFailed err) []
  | .ok scheduler => mainLoop env n scheduler none []

/-- The tasks handed to the scanner, read off a trace by their start index
and end index. -/
def scannedRanges : List Event → List (Int × Int)
  | [] => []
  | Event.scan _ opts :: rest =>
    (opts.Fetcher.StartIndex, opts.Fetcher.EndIndex) :: scannedRanges rest
  | Event.println _ :: rest => scannedRanges rest

/-- The lineage `t, Next(t), Next(Next(t)), ...`: the task after `k` calls. -/
def lineage (s : SimpleScheduler) (t : Task) : Nat → Except Panic Task
  | 0 => .ok t
  | k + 1 =>
    match lineage s t k with
    | .error p => .error p
    | .ok tk =>
      match s.Next (some tk) with
      | .error p => .error p
      | .ok (_, tk') => .ok tk'

/-! ## Artifact names (`simple.go`, `dumpData`) -/

/-- `ct.X509LogEntryType`. -/
def X509LogEntryType : Nat := 0

/-- `ct.PrecertLogEntryType`. -/
def PrecertLogEntryType : Nat := 1

/-- The part of `ct.RawLogEntry` that `dumpData` reads: `entry.Index`,
`entry.Leaf.TimestampedEntry.EntryType`, `entry.Cert.Data` and the `Data` of
each element of `entry.Chain`. -/
structure RawLogEntry where
  Index : Int
  EntryType : Nat
  Cert : Bytes
  Chain : List Bytes
deriving DecidableEq, Repr

/-- The decimal digits of `n` behind as many `'0'` as it takes to reach
`width` characters. -/
def zeroPadNat (width n : Nat) : List Char :=
  List.replicate (width - (Nat.toDigits 10 n).length) '0' ++ Nat.toDigits 10 n

/-- The verb `%0<width>d` of `fmt.Sprintf` on an integer: zero padded to
`width` characters, the sign of a negative number counted in the width and
written before the zeros. -/
def fmtZeroPadded (width : Nat) (i : Int) : String :=
  if i < 0 then String.mk ('-' :: zeroPadNat (width - 1) i.natAbs)
  else String.mk (zeroPadNat width i.toNat)

/-- The `switch` of `dumpData`: the name's first part and the leaf's last
part, by entry type. -/
def namePair (eType : Nat) : String × String :=
  if eType = X509LogEntryType then ("cert", "leaf")
  else if eType = PrecertLogEntryType then ("precert", "precert")
  else ("unknown", "unknown")

/-- The leaf name, `fmt.Sprintf("%s-%014d-%s.der", ...)`, from the name's first
part, the index and the name's last part. -/
def leafName (pfx : String) (index : Int) (sfx : String) : String :=
  pfx ++ "-" ++ fmtZeroPadded 14 index ++ "-" ++ sfx ++ ".der"

/-- The chain certificate name, `fmt.Sprintf("%s-%014d-%02d.der", ...)`, from
the name's first part, the index and the position in the chain. -/
def chainName (pfx : String) (index : Int) (ii : Nat) : String :=
  pfx ++ "-" ++ fmtZeroPadded 14 index ++ "-" ++ fmtZeroPadded 2 ii ++ ".der"

/-- The leaf name `dumpData` builds for an entry. -/
def entryLeafName (entry : RawLogEntry) : String :=
  leafName (namePair entry.EntryType).1 entry.Index (namePair entry.EntryType).2

/-- `func dumpData(entry *ct.RawLogEntry, dumpDir string)`: the files it
writes, as (file name, contents), in order. `join` is `path.Join`. -/
def dumpData (join : String → String → String) (entry : RawLogEntry) (dumpDir : String) :
    List (String × Bytes) :=
  (if entry.Cert.length > 0 then [(join dumpDir (entryLeafName entry), entry.Cert)] else []) ++
    (List.range entry.Chain.length).map fun ii =>
      (join dumpDir (chainName (namePair entry.EntryType).1 entry.Index ii),
        entry.Chain.getD ii [])

/-- The value a string of decimal digits stands for, most significant digit
first. -/
def decimalValue (cs : List Char) : Nat :=
  cs.foldl (fun acc c => acc * 10 + (c.toNat - 48)) 0

/-! ## Concrete inputs used by the evaluations below -/

/-- A scheduler state as a checkpoint `start=500, batchSize=50` gives it. -/
def sampleScheduler : SimpleScheduler :=
  { LogURI := "https://ct.example/log", CurrentBatch := 3, BatchSize := 50,
    SaveData := "save.json", Start := 500, End := 1000 }

/-- A task over `[500, 1000)` in batches of 50. -/
def sampleTask : Task :=
  { LogURI := "https://ct.example/log", PrecertsOnly := true, BatchSize := 50,
    Concurrency := 2, StartIndex := 500, EndIndex := 1000, Res := none }

/-- A task whose start index is the largest `int64`. -/
def lastIndexTask : Task :=
  { LogURI := "https://ct.example/log", PrecertsOnly := false, BatchSize := 1,
    Concurrency := 1, StartIndex := 9223372036854775807, EndIndex := 0, Res := none }

/-- A configuration with `start = 100` whose checkpoint is `save.json`. -/
def sampleConfig : SimpleConfig :=
  { LogURI := "https://ct.example/log", SaveData := "save.json", BatchSize := 50,
    Concurrency := "2", Start := 100, End := 1000 }

/-- A YAML decoder that knows one file. -/
def sampleYaml (content : Bytes) : Except Error SimpleConfig :=
  if content = [1] then .ok sampleConfig else .error (Error.other "yaml: bad document")

/-- A JSON decoder that knows one file. -/
def sampleJson (saved : Bytes) : Except Error SimpleScheduler :=
  if saved = [2] then .ok sampleScheduler else .error (Error.other "json: bad document")

/-- A disk with the configuration and no checkpoint. -/
def freshDisk : StartEnv :=
  { readFile := fun p => if p = "simple.yaml" then .ok [1] else .error Error.notExist
    yamlUnmarshal := sampleYaml
    jsonUnmarshal := sampleJson }

/-- A disk with the configuration and a checkpoint that decodes. -/
def resumedDisk : StartEnv :=
  { readFile := fun p =>
      if p = "simple.yaml" then .ok [1]
      else if p = "save.json" then .ok [2]
      else .error Error.notExist
    yamlUnmarshal := sampleYaml
    jsonUnmarshal := sampleJson }

/-- A disk with the configuration and a checkpoint that does not decode. -/
def corruptDisk : StartEnv :=
  { readFile := fun p =>
      if p = "simple.yaml" then .ok [1]
      else if p = "save.json" then .ok [9]
      else .error Error.notExist
    yamlUnmarshal := sampleYaml
    jsonUnmarshal := sampleJson }

/-- A certificate entry at index 7 with a chain of one. -/
def certEntry : RawLogEntry :=
  { Index := 7, EntryType := X509LogEntryType, Cert := [48, 130], Chain := [[48, 131]] }

/-- A precertificate entry at index 7. -/
def precertEntry : RawLogEntry :=
  { Index := 7, EntryType := PrecertLogEntryType, Cert := [48, 130], Chain := [] }

/-! ## Shared lemmas -/

theorem wrapInt64_of_inRange (x : Int) (hlo : -(2 ^ 63) ≤ x) (hhi : x ≤ maxInt64) :
    wrapInt64 x = x := by
  unfold wrapInt64 maxInt64 at *
  omega

theorem Next_some (s : SimpleScheduler) (t : Task) :
    s.Next (some t) = .ok (s,
      { LogURI := t.LogURI, PrecertsOnly := t.PrecertsOnly, BatchSize := t.BatchSize,
        Concurrency := t.Concurrency, StartIndex := wrapInt64 (t.StartIndex + t.BatchSize),
        EndIndex := t.EndIndex, Res := none }) := rfl

theorem Gao_scans_with_opts (env : ScanEnv) (t : Task) :
    ∃ client, Event.scan client (Gao.opts t) ∈ (Gao env t).1 := by
  unfold Gao
  cases h1 : env.clientNew t.LogURI <;> simp only [] <;> split
  · exact ⟨some t.LogURI, by simp⟩
  · exact ⟨some t.LogURI, by simp⟩
  · exact ⟨some t.LogURI, by simp⟩
  · exact ⟨none, by simp⟩
  · exact ⟨none, by simp⟩
  · exact ⟨none, by simp⟩

theorem main_before_first_scan (senv : StartEnv) (env : ScanEnv) (n : Nat) :
    (∃ p, main senv env n = Run.panicked p []) ∨
      (∃ s, main senv env n = Run.running s none []) := by
  unfold main
  cases SimpleStarter.Start senv with
  | error err => exact Or.inl ⟨_, rfl⟩
  | ok s =>
    cases n with
    | zero => exact Or.inr ⟨s, rfl⟩
    | succ n => exact Or.inl ⟨Panic.nilDereference, rfl⟩

theorem lineage_closed_form (s : SimpleScheduler) (t : Task) (n : Nat)
    (h0 : 0 ≤ t.StartIndex) (h1 : 1 ≤ t.BatchSize)
    (hb : t.StartIndex + n * t.BatchSize ≤ maxInt64) :
    ∀ k, k ≤ n → ∃ tk, lineage s t k = .ok tk ∧
      tk.StartIndex = t.StartIndex + k * t.BatchSize ∧ tk.BatchSize = t.BatchSize := by
  intro k
  induction k with
  | zero => intro _; exact ⟨t, rfl, by simp, rfl⟩
  | succ k ih =>
    intro hk
    obtain ⟨tk, htk, hs, hbs⟩ := ih (by omega)
    refine ⟨{ tk with StartIndex := wrapInt64 (tk.StartIndex + tk.BatchSize), Res := none },
      by simp only [lineage, htk, Next_some], ?_, hbs⟩
    simp only [hs, hbs]
    have hle : ((k + 1 : Nat) : Int) * t.BatchSize ≤ (n : Int) * t.BatchSize :=
      mul_le_mul_of_nonneg_right (by exact_mod_cast hk) (by omega)
    have hk0 : (0 : Int) ≤ ((k + 1 : Nat) : Int) * t.BatchSize :=
      mul_nonneg (by positivity) (by omega)
    have heq : t.StartIndex + (k : Int) * t.BatchSize + t.BatchSize
        = t.StartIndex + ((k + 1 : Nat) : Int) * t.BatchSize := by push_cast; ring
    rw [heq]
    apply wrapInt64_of_inRange
    · omega
    · omega

/-! ## The scheduler -/

/-- C1: for every completed task `t`, `Next(t)` returns a task whose start
index is `t.StartIndex + t.BatchSize` in `int64` arithmetic; a task with start
index 500 and batch size 50 yields a successor with start index 550. -/
theorem Next_advances_one_batch (s : SimpleScheduler) (t : Task) :
    (∃ s' n, s.Next (some t) = .ok (s', n) ∧
      n.StartIndex = wrapInt64 (t.StartIndex + t.BatchSize)) ∧
    (∃ s' n, s.Next (some { t with StartIndex := 500, BatchSize := 50 }) = .ok (s', n) ∧
      n.StartIndex = 550) := by
  refine ⟨⟨s, _, Next_some s t, rfl⟩, ⟨s, _, Next_some s _, ?_⟩⟩
  show wrapInt64 (500 + 50) = 550
  decide

/-- C3, what the code does: `Next` returns the successor task and leaves the
scheduler state exactly as it was, so `CurrentBatch` is not one more than before
the call and `Start` is not moved to the successor's start index. -/
theorem Next_leaves_checkpoint_untouched (s : SimpleScheduler) (t : Task) :
    (∃ s' n, s.Next (some t) = .ok (s', n) ∧ s' = s ∧
      s'.CurrentBatch ≠ s.CurrentBatch + 1) ∧
    (∃ s' n, sampleScheduler.Next (some sampleTask) = .ok (s', n) ∧
      n.StartIndex = 550 ∧ s'.Start = 500 ∧ s'.CurrentBatch = 3) := by
  refine ⟨⟨s, _, Next_some s t, rfl, by omega⟩,
    ⟨sampleScheduler, _, Next_some _ _, ?_, rfl, rfl⟩⟩
  decide

/-- C4, what the code does: the first call of the loop, `Next(nil)`, is a nil
pointer dereference whatever the scheduler holds, and `main` stops there
without having scanned anything. -/
theorem Next_nil_panics (s : SimpleScheduler) (env : ScanEnv) (n : Nat) :
    s.Next none = .error Panic.nilDereference ∧
    mainLoop env (n + 1) s none [] = Run.panicked Panic.nilDereference [] :=
  ⟨rfl, rfl⟩

/-- C6, as stated, fails: the task with start index `2^63 - 1` and batch size 1
has a non-negative start index and a batch size of at least 1, and its
successor's start index is `-2^63`, below its own. -/
theorem lineage_start_decreases_on_overflow :
    0 ≤ lastIndexTask.StartIndex ∧ 1 ≤ lastIndexTask.BatchSize ∧
    ∃ a b, lineage sampleScheduler lastIndexTask 0 = .ok a ∧
      lineage sampleScheduler lastIndexTask 1 = .ok b ∧
      b.StartIndex = -9223372036854775808 ∧ ¬ a.StartIndex ≤ b.StartIndex := by
  refine ⟨by decide, by decide, lastIndexTask, _, rfl, rfl, ?_, ?_⟩ <;> decide

/-- C6, amended: for a task with a non-negative start index and a batch size of
at least 1, as long as `StartIndex + n * BatchSize` stays within `int64`, each
of the first `n` calls of `Next` returns, and the start index of the
`(k+1)`-th task of the lineage is at least that of the `k`-th, for all
`k < n`. -/
theorem lineage_start_nondecreasing (s : SimpleScheduler) (t : Task) (n : Nat)
    (h0 : 0 ≤ t.StartIndex) (h1 : 1 ≤ t.BatchSize)
    (hb : t.StartIndex + n * t.BatchSize ≤ maxInt64) :
    ∀ k, k < n → ∃ a b, lineage s t k = .ok a ∧ lineage s t (k + 1) = .ok b ∧
      a.StartIndex ≤ b.StartIndex := by
  intro k hk
  obtain ⟨a, ha, hsa, _⟩ := lineage_closed_form s t n h0 h1 hb k (by omega)
  obtain ⟨b, hb', hsb, _⟩ := lineage_closed_form s t n h0 h1 hb (k + 1) (by omega)
  refine ⟨a, b, ha, hb', ?_⟩
  rw [hsa, hsb]
  push_cast
  nlinarith

/-- The amended C6 at the task over `[500, 1000)` in batches of 50, three calls. -/
theorem lineage_start_nondecreasing_witness :
    (0 ≤ sampleTask.StartIndex ∧ 1 ≤ sampleTask.BatchSize ∧
      sampleTask.StartIndex + (3 : Nat) * sampleTask.BatchSize ≤ maxInt64) ∧
    ∀ k, k < 3 → ∃ a b, lineage sampleScheduler sampleTask k = .ok a ∧
      lineage sampleScheduler sampleTask (k + 1) = .ok b ∧ a.StartIndex ≤ b.StartIndex :=
  ⟨⟨by decide, by decide, by decide⟩,
    lineage_start_nondecreasing sampleScheduler sampleTask 3 (by decide) (by decide) (by decide)⟩

/-! ## The driving loop and the fetch pipeline -/

/-- C2: in no run of `main` is the fetch pipeline run on a task after a failed
scan, and so on none beyond the failed task's start index: a run of `main`
has no event at all. `Scan` is never called and the Logger never receives an
error, because `main` stops in `Start` or in the first `Next(nil)`. -/
theorem main_scans_nothing (senv : StartEnv) (env : ScanEnv) (n : Nat) :
    Run.trace (main senv env n) = [] ∧ scannedRanges (Run.trace (main senv env n)) = [] := by
  rcases main_before_first_scan senv env n with ⟨p, hp⟩ | ⟨s, hs⟩
  · rw [hp]; exact ⟨rfl, rfl⟩
  · rw [hs]; exact ⟨rfl, rfl⟩

/-- C5: the driving loop in `main` runs `Gao` on no task and requests a
successor for no task, so for none with `StartIndex >= EndIndex`: every state
a run of `main` reaches either is a panic before any event or holds the nil
`task` and no event, and from the nil `task` the loop has no step, the pass
panics in `Next`. -/
theorem main_holds_no_task (senv : StartEnv) (env : ScanEnv) (n : Nat) :
    ((∃ p, main senv env n = Run.panicked p []) ∨
      (∃ s, main senv env n = Run.running s none [])) ∧
    (∀ s, loopBody env s none = .error Panic.nilDereference) ∧
    (∃ p, main senv env (n + 1) = Run.panicked p []) := by
  refine ⟨main_before_first_scan senv env n, fun _ => rfl, ?_⟩
  unfold main
  cases SimpleStarter.Start senv with
  | error err => exact ⟨_, rfl⟩
  | ok s => exact ⟨Panic.nilDereference, rfl⟩

/-- C10, what the code does: the scanner options `Gao` builds for a task with
`PrecertsOnly = true` have `PrecertOnly = false`; they are the options of the
same task with `PrecertsOnly = false`, and they are the options the scan is
run with. -/
theorem Gao_drops_PrecertsOnly (env : ScanEnv) (t : Task) :
    (Gao.opts { t with PrecertsOnly := true }).PrecertOnly = false ∧
    Gao.opts { t with PrecertsOnly := true } = Gao.opts { t with PrecertsOnly := false } ∧
    ∃ client, Event.scan client (Gao.opts { t with PrecertsOnly := true })
      ∈ (Gao env { t with PrecertsOnly := true }).1 := by
  exact ⟨rfl, rfl, Gao_scans_with_opts env _⟩

/-! ## Start-up -/

/-- C7: for a configuration file that is read and parses to `c`: if the
checkpoint file `c.SaveData` is read and decodes to `d`, `Start` returns
exactly `d`; if the checkpoint file does not exist, `Start` returns the fresh
state with `LogURI`, `BatchSize`, `Start`, `End`, `SaveData` copied from `c`
and `CurrentBatch = 0`. -/
theorem Start_resumes_or_starts_fresh (env : StartEnv) (content : Bytes) (c : SimpleConfig)
    (hread : env.readFile "simple.yaml" = .ok content)
    (hparse : env.yamlUnmarshal content = .ok c) :
    (∀ saved d, env.readFile c.SaveData = .ok saved → env.jsonUnmarshal saved = .ok d →
      SimpleStarter.Start env = .ok d) ∧
    (env.readFile c.SaveData = .error Error.notExist →
      SimpleStarter.Start env = .ok
        { LogURI := c.LogURI, CurrentBatch := 0, SaveData := c.SaveData,
          BatchSize := c.BatchSize, Start := c.Start, End := c.End }) := by
  constructor
  · intro saved d hsaved hd
    simp only [SimpleStarter.Start, hread, hparse, hsaved, hd]
  · intro hmissing
    simp only [SimpleStarter.Start, hread, hparse, hmissing]

/-- C7 on a disk with a checkpoint that decodes and on a disk without one. -/
theorem Start_resumes_or_starts_fresh_witness :
    SimpleStarter.Start resumedDisk = .ok sampleScheduler ∧
    SimpleStarter.Start freshDisk = .ok
      { LogURI := "https://ct.example/log", CurrentBatch := 0, SaveData := "save.json",
        BatchSize := 50, Start := 100, End := 1000 } :=
  ⟨(Start_resumes_or_starts_fresh resumedDisk [1] sampleConfig rfl rfl).1 [2] sampleScheduler
      rfl rfl,
    (Start_resumes_or_starts_fresh freshDisk [1] sampleConfig rfl rfl).2 rfl⟩

/-- C8: `Start` returns an error, and then no scheduler, exactly when the
configuration file cannot be read, or its content fails to parse, or the
checkpoint file is read and fails to decode; and a checkpoint that is read and
fails to decode makes `Start` return that decoding error, never a state. -/
theorem Start_error_iff (env : StartEnv) :
    ((∃ err, SimpleStarter.Start env = .error err) ↔
      ((∃ err, env.readFile "simple.yaml" = .error err) ∨
       (∃ content err, env.readFile "simple.yaml" = .ok content ∧
          env.yamlUnmarshal content = .error err) ∨
       (∃ content c saved err, env.readFile "simple.yaml" = .ok content ∧
          env.yamlUnmarshal content = .ok c ∧ env.readFile c.SaveData = .ok saved ∧
          env.jsonUnmarshal saved = .error err))) ∧
    (∀ content c saved err, env.readFile "simple.yaml" = .ok content →
      env.yamlUnmarshal content = .ok c → env.readFile c.SaveData = .ok saved →
      env.jsonUnmarshal saved = .error err → SimpleStarter.Start env = .error err) := by
  constructor
  · unfold SimpleStarter.Start
    cases h1 : env.readFile "simple.yaml" with
    | error e => simp
    | ok content =>
      cases h2 : env.yamlUnmarshal content with
      | error e => simp [h2]
      | ok c =>
        cases h3 : env.readFile c.SaveData with
        | error e => simp [h2, h3]
        | ok saved =>
          cases h4 : env.jsonUnmarshal saved with
          | error e => simp [h2, h3, h4]
          | ok d => simp [h2, h3, h4]
  · intro content c saved err h1 h2 h3 h4
    simp only [SimpleStarter.Start, h1, h2, h3, h4]

/-- C8 on a disk whose checkpoint does not decode. -/
theorem Start_error_iff_witness :
    (∃ err, SimpleStarter.Start corruptDisk = .error err) ∧
    SimpleStarter.Start corruptDisk = .error (Error.other "json: bad document") :=
  ⟨(Start_error_iff corruptDisk).1.mpr
      (Or.inr (Or.inr ⟨[1], sampleConfig, [9], Error.other "json: bad document",
        rfl, rfl, rfl, rfl⟩)),
    (Start_error_iff corruptDisk).2 [1] sampleConfig [9] (Error.other "json: bad document")
      rfl rfl rfl rfl⟩

/-! ## Artifact names -/

theorem toDigitsCore_acc (fuel : Nat) : ∀ (n : Nat) (ds : List Char),
    Nat.toDigitsCore 10 fuel n ds = Nat.toDigitsCore 10 fuel n [] ++ ds := by
  induction fuel with
  | zero => intro n ds; simp [Nat.toDigitsCore]
  | succ fuel ih =>
    intro n ds
    simp only [Nat.toDigitsCore]
    split
    · simp
    · rw [ih (n / 10) (Nat.digitChar (n % 10) :: ds), ih (n / 10) [Nat.digitChar (n % 10)]]
      simp

theorem toDigitsCore_last (fuel n : Nat) :
    ∃ front, Nat.toDigitsCore 10 (fuel + 1) n [] = front ++ [Nat.digitChar (n % 10)] := by
  simp only [Nat.toDigitsCore]
  split
  · exact ⟨[], rfl⟩
  · exact ⟨_, toDigitsCore_acc fuel (n / 10) [Nat.digitChar (n % 10)]⟩

theorem zeroPadNat_last (width n : Nat) :
    ∃ front, zeroPadNat width n = front ++ [Nat.digitChar (n % 10)] := by
  obtain ⟨front, hfront⟩ := toDigitsCore_last n n
  refine ⟨List.replicate (width - (Nat.toDigits 10 n).length) '0' ++ front, ?_⟩
  simp only [zeroPadNat, Nat.toDigits, hfront, List.append_assoc]

theorem digitChar_value : ∀ m, m < 10 → (Nat.digitChar m).toNat - 48 = m := by decide

theorem decimalValue_snoc (cs : List Char) (c : Char) :
    decimalValue (cs ++ [c]) = decimalValue cs * 10 + (c.toNat - 48) := by
  simp [decimalValue, List.foldl_append]

theorem decimalValue_toDigitsCore (fuel : Nat) : ∀ n, n < fuel →
    decimalValue (Nat.toDigitsCore 10 fuel n []) = n := by
  induction fuel with
  | zero => intro n h; omega
  | succ fuel ih =>
    intro n h
    simp only [Nat.toDigitsCore]
    split
    · rename_i h0
      have hn : n % 10 = n := by omega
      have hd := digitChar_value (n % 10) (Nat.mod_lt _ (by decide))
      rw [hn] at hd
      simp only [decimalValue, List.foldl, hn]
      omega
    · rename_i h0
      rw [toDigitsCore_acc fuel (n / 10) [Nat.digitChar (n % 10)], decimalValue_snoc,
        ih (n / 10) (by omega), digitChar_value (n % 10) (Nat.mod_lt _ (by decide))]
      omega

theorem decimalValue_zeros (k : Nat) (ds : List Char) :
    decimalValue (List.replicate k '0' ++ ds) = decimalValue ds := by
  induction k with
  | zero => simp
  | succ k ih =>
    have h0 : decimalValue (List.replicate k '0' ++ ds)
        = List.foldl (fun acc c => acc * 10 + (c.toNat - 48)) 0 (List.replicate k '0' ++ ds) :=
      rfl
    rw [← ih, h0]
    simp [decimalValue, List.replicate_succ]

theorem decimalValue_zeroPadNat (width n : Nat) : decimalValue (zeroPadNat width n) = n := by
  unfold zeroPadNat
  rw [decimalValue_zeros]
  exact decimalValue_toDigitsCore (n + 1) n (by omega)

theorem fmtZeroPadded_of_nonneg (width : Nat) (i : Int) (h : 0 ≤ i) :
    fmtZeroPadded width i = String.mk (zeroPadNat width i.toNat) := by
  unfold fmtZeroPadded
  rw [if_neg (by omega)]

theorem fmtZeroPadded_injective (width : Nat) (i j : Int) (hi : 0 ≤ i) (hj : 0 ≤ j)
    (h : (fmtZeroPadded width i).data = (fmtZeroPadded width j).data) : i = j := by
  rw [fmtZeroPadded_of_nonneg width i hi, fmtZeroPadded_of_nonneg width j hj] at h
  have hv := congrArg decimalValue h
  simp only [decimalValue_zeroPadNat] at hv
  omega

theorem fmtZeroPadded_last_digit (width n : Nat) :
    ∃ front, (fmtZeroPadded width (n : Int)).data = front ++ [Nat.digitChar (n % 10)] := by
  rw [fmtZeroPadded_of_nonneg width n (by omega)]
  simpa using zeroPadNat_last width n

theorem namePair_cases (eType : Nat) :
    namePair eType = ("cert", "leaf") ∨ namePair eType = ("precert", "precert") ∨
      namePair eType = ("unknown", "unknown") := by
  unfold namePair
  split
  · exact Or.inl rfl
  · split
    · exact Or.inr (Or.inl rfl)
    · exact Or.inr (Or.inr rfl)

theorem digitChar_not_letter : ∀ m, m < 10 →
    Nat.digitChar m ≠ 'f' ∧ Nat.digitChar m ≠ 't' ∧ Nat.digitChar m ≠ 'n' := by decide

theorem leafName_eq_imp (e1 e2 : RawLogEntry) (h1 : 0 ≤ e1.Index) (h2 : 0 ≤ e2.Index)
    (h : entryLeafName e1 = entryLeafName e2) :
    namePair e1.EntryType = namePair e2.EntryType ∧ e1.Index = e2.Index := by
  have hd := congrArg String.data h
  unfold entryLeafName leafName at hd
  rcases namePair_cases e1.EntryType with c1 | c1 | c1 <;>
    rcases namePair_cases e2.EntryType with c2 | c2 | c2 <;>
    rw [c1, c2] at hd ⊢ <;>
    simp [String.data_append] at hd ⊢ <;>
    exact fmtZeroPadded_injective 14 _ _ h1 h2 hd

theorem leafName_ne_chainName (e1 : RawLogEntry) (pfx : String) (index : Int) (ii : Nat) :
    entryLeafName e1 ≠ chainName pfx index ii := by
  intro h
  have hd := congrArg (fun x => (String.data x).reverse) h
  obtain ⟨front, hfront⟩ := fmtZeroPadded_last_digit 2 ii
  obtain ⟨hf, ht, hn⟩ := digitChar_not_letter (ii % 10) (Nat.mod_lt _ (by decide))
  unfold entryLeafName leafName chainName at hd
  rcases namePair_cases e1.EntryType with c1 | c1 | c1 <;>
    rw [c1] at hd <;>
    simp [String.data_append, hfront] at hd
  · exact hf hd.1.symm
  · exact ht hd.1.symm
  · exact hn hd.1.symm

/-- C9: the leaf file name `dumpData` builds is injective in (classification,
index): two entries with non-negative indices that differ in classification
(the pair cert/leaf, precert/precert or unknown/unknown of their entry type)
or in index have different leaf file names; and no leaf file name equals a
chain certificate file name, whatever that one's first part, index and
position. -/
theorem leaf_names_unique (e1 e2 : RawLogEntry) (h1 : 0 ≤ e1.Index) (h2 : 0 ≤ e2.Index) :
    (namePair e1.EntryType ≠ namePair e2.EntryType ∨ e1.Index ≠ e2.Index →
      entryLeafName e1 ≠ entryLeafName e2) ∧
    (∀ (pfx : String) (index : Int) (ii : Nat),
      entryLeafName e1 ≠ chainName pfx index ii) := by
  refine ⟨?_, leafName_ne_chainName e1⟩
  intro hne heq
  obtain ⟨hc, hi⟩ := leafName_eq_imp e1 e2 h1 h2 heq
  rcases hne with hne | hne
  · exact hne hc
  · exact hne hi

/-- C9 at a certificate and a precertificate that share index 7. -/
theorem leaf_names_unique_witness :
    (0 ≤ certEntry.Index ∧ 0 ≤ precertEntry.Index) ∧
    entryLeafName certEntry ≠ entryLeafName precertEntry ∧
    entryLeafName certEntry ≠ chainName "cert" 7 0 :=
  ⟨⟨by decide, by decide⟩,
    (leaf_names_unique certEntry precertEntry (by decide) (by decide)).1 (Or.inl (by decide)),
    (leaf_names_unique certEntry precertEntry (by decide) (by decide)).2 "cert" 7 0⟩

end Axeamigo
